import Mathlib

/-
Verification development for the equirect2cubemap repository.

The Rust sources (src/lib.rs, src/main.rs, src/math.rs) are shallowly
embedded below.  Machine f32 arithmetic is modelled exactly over the
rationals where the code only adds, multiplies and divides small
numbers, and over the reals where the code calls sqrt, asin and atan2.
A possible f32 NaN produced by asin on an out-of-range argument is
modelled by Option: none stands for NaN.
-/

/-! ## Pixels -/

/-- An 8-bit RGBA pixel, the value written into output face buffers.
Embeds image::Rgba of u8; channels are Nat values intended in 0..255. -/
structure Rgba where
  r : Nat
  g : Nat
  b : Nat
  a : Nat
deriving DecidableEq, Repr

/-! ## Reinhard tone mapping (src/math.rs, reinhard_tone_mapping_rgba and
reinhard_tone_mapping_rgb)

The per-channel computation of the source is
  c1 = (c * exposure) / (1.0 + c * exposure);  (c1 * 255.0).round() as u8
which we model exactly over the rationals. -/

/-- Rounding of Rust f32 round: round half away from zero. -/
def rustRound (q : ℚ) : ℤ :=
  if q < 0 then -(Int.floor (-q + 1/2)) else Int.floor (q + 1/2)

/-- Saturating cast of Rust as u8: clamp an integer into 0..255. -/
def asU8 (z : ℤ) : Nat := (min 255 (max 0 z)).toNat

/-- One channel of the Reinhard operator as the source computes it:
(c*e)/(1 + c*e) scaled by 255, rounded, cast to u8. -/
def toneChannel (c e : ℚ) : Nat :=
  asU8 (rustRound ((c * e) / (1 + c * e) * 255))

/-- Embeds reinhard_tone_mapping_rgb from src/math.rs: three channels
through the Reinhard operator, alpha set to 255. -/
def reinhard_tone_mapping_rgb (r g b exposure : ℚ) : Rgba :=
  { r := toneChannel r exposure
    g := toneChannel g exposure
    b := toneChannel b exposure
    a := 255 }

/-- Embeds reinhard_tone_mapping_rgba from src/math.rs: three channels
through the Reinhard operator, alpha mapped directly by round(a*255). -/
def reinhard_tone_mapping_rgba (r g b a exposure : ℚ) : Rgba :=
  { r := toneChannel r exposure
    g := toneChannel g exposure
    b := toneChannel b exposure
    a := asU8 (rustRound (a * 255)) }

/-! ## CLI surface (src/lib.rs and src/main.rs, struct Config)

The Config struct derives clap::Parser.  Its attribute-bearing fields
are format, interpolation, size and rotate, each with #[arg(short,
long)], so clap exposes exactly these short/long flag pairs; input and
output are positionals.  There is no tone_mapping and no exposure
field. -/

/-- The (short, long) option flags clap derives from struct Config. -/
def cliFlags : List (String × String) :=
  [("f", "format"), ("i", "interpolation"), ("s", "size"), ("r", "rotate")]

/-- Embeds enum OutputFormat of src/lib.rs. -/
inductive OutputFormat where
  | Jpg
  | Png
  | Webp
deriving DecidableEq, Repr

/-- Embeds the Display impl of OutputFormat (file extension text). -/
def OutputFormat.text : OutputFormat → String
  | OutputFormat.Jpg => "jpg"
  | OutputFormat.Png => "png"
  | OutputFormat.Webp => "webp"

/-- Embeds enum Interpolation of src/math.rs. -/
inductive Interpolation where
  | Linear
  | Nearest
deriving DecidableEq, Repr

/-- Embeds enum Side of src/lib.rs. -/
inductive Side where
  | Front
  | Back
  | Left
  | Right
  | Top
  | Bottom
deriving DecidableEq, Repr

/-- Embeds the Display impl of Side (output file base names). -/
def sideName : Side → String
  | Side.Front => "front"
  | Side.Back => "back"
  | Side.Left => "left"
  | Side.Right => "right"
  | Side.Top => "top"
  | Side.Bottom => "bottom"

/-- Embeds struct Config of src/lib.rs: the parsed command line.
PathBuf fields are modelled as strings. -/
structure Config where
  format : OutputFormat
  interpolation : Interpolation
  input : String
  output : String
  size : Nat
  rotate : Bool

/-! ## Vec3 and SphericalAngle (src/math.rs)

Components are modelled as real numbers; sqrt, asin and atan2 are the
real functions.  f32 asin returns NaN when its argument leaves [-1, 1];
that partiality is kept by giving phi the type Option (none = NaN). -/

/-- Embeds struct Vector3 of src/math.rs (named Vec3 here because Mathlib already has a Vector3). -/
structure Vec3 where
  x : ℝ
  y : ℝ
  z : ℝ

/-- Embeds Vector3::len: Euclidean length. -/
noncomputable def Vec3.len (v : Vec3) : ℝ :=
  Real.sqrt (v.x * v.x + v.y * v.y + v.z * v.z)

/-- Embeds Vector3::normalize: each component divided by the length.
The source divides blindly; callers guarantee a non-zero vector. -/
noncomputable def Vec3.normalize (v : Vec3) : Vec3 :=
  { x := v.x / v.len, y := v.y / v.len, z := v.z / v.len }

open Classical in
/-- The IEEE atan2 as f32::atan2 computes it, by quadrant of (x, y). -/
noncomputable def atan2 (y x : ℝ) : ℝ :=
  if 0 < x then Real.arctan (y / x)
  else if x < 0 then
    (if 0 ≤ y then Real.arctan (y / x) + Real.pi
     else Real.arctan (y / x) - Real.pi)
  else
    (if 0 < y then Real.pi / 2
     else if y < 0 then -(Real.pi / 2)
     else 0)

open Classical in
/-- The f32 asin: defined on [-1, 1], NaN (modelled none) outside. -/
noncomputable def asinF (x : ℝ) : Option ℝ :=
  if -1 ≤ x ∧ x ≤ 1 then some (Real.arcsin x) else none

/-- Embeds struct SphericalAngle of src/math.rs; phi is Option because
asin can produce NaN. -/
structure SphericalAngle where
  theta : ℝ
  phi : Option ℝ

/-- Embeds SphericalAngle::from_normalized_vector of src/math.rs:
theta = value.y.atan2(value.x), phi = value.z.asin().  Note the source
applies no clamp to value.z before asin. -/
noncomputable def SphericalAngle.from_normalized_vector
    (value : Vec3) : SphericalAngle :=
  { theta := atan2 value.y value.x, phi := asinF value.z }

/-- Embeds SphericalAngle::to_uv of src/math.rs:
(theta/(2 pi) + 0.5, phi/pi + 0.5); a NaN phi yields a NaN v. -/
noncomputable def SphericalAngle.to_uv (s : SphericalAngle) : ℝ × Option ℝ :=
  (s.theta / (2 * Real.pi) + 0.5, s.phi.map (fun p => p / Real.pi + 0.5))

/-! ## Images and sampling

The decoded source image (image::DynamicImage viewed through its
Rgba of u8 GenericImageView) and the output face buffers
(image::RgbaImage) are both modelled as a width, a height and a pixel
lookup function. -/

/-- A pixel raster: dimensions plus a lookup function.  Embeds both
the decoded DynamicImage view and ImageBuffer of Rgba u8. -/
structure RgbaImage where
  width : Nat
  height : Nat
  get : Nat → Nat → Rgba

/-- Embeds RgbaImage::new of the image crate: a zero-initialised
(transparent black) buffer of the given dimensions. -/
def RgbaImage.new (w h : Nat) : RgbaImage :=
  { width := w, height := h, get := fun _ _ => ⟨0, 0, 0, 0⟩ }

/-- Embeds ImageBuffer::put_pixel: replace the pixel at (x, y). -/
def RgbaImage.putPixel (img : RgbaImage) (x y : Nat) (p : Rgba) : RgbaImage :=
  { img with get := fun i j => if i = x ∧ j = y then p else img.get i j }

/-- Clamp an integer sample index into 0..n-1 and cast to Nat. -/
def clampIdx (n : Nat) (z : ℤ) : Nat := (min ((n : ℤ) - 1) (max 0 z)).toNat

open Classical in
/-- Rounding of f32 round over the reals: half away from zero. -/
noncomputable def rustRoundR (q : ℝ) : ℤ :=
  if q < 0 then -(Int.floor (-q + 1/2)) else Int.floor (q + 1/2)

/-- Modelled from the spec: the pixel the external image crate nearest
sampler picks for an in-range (u, v) per section 4.2 - the pixel at
(round(u*(W-1)), round(v*(H-1))), indices clamped to the raster. -/
noncomputable def nearestAt (img : RgbaImage) (u v : ℝ) : Rgba :=
  img.get
    (clampIdx img.width (rustRoundR (u * ((img.width : ℝ) - 1))))
    (clampIdx img.height (rustRoundR (v * ((img.height : ℝ) - 1))))

/-- Blend one channel of four enclosing samples with bilinear weights
and round to 8 bits. -/
noncomputable def mixChannel (c00 c10 c01 c11 : Nat) (fx fy : ℝ) : Nat :=
  (rustRoundR ((1 - fx) * (1 - fy) * c00 + fx * (1 - fy) * c10
      + (1 - fx) * fy * c01 + fx * fy * c11)).toNat

/-- Modelled from the spec: the pixel the external image crate bilinear
sampler computes for an in-range (u, v) per section 4.2 - bilinear
interpolation over the four enclosing integer-coordinate samples,
weights from the fractional parts of u*(W-1) and v*(H-1), indices
clamped to the raster. -/
noncomputable def bilinearAt (img : RgbaImage) (u v : ℝ) : Rgba :=
  let ui := u * ((img.width : ℝ) - 1)
  let vi := v * ((img.height : ℝ) - 1)
  let x0 := clampIdx img.width (Int.floor ui)
  let y0 := clampIdx img.height (Int.floor vi)
  let x1 := min (x0 + 1) (img.width - 1)
  let y1 := min (y0 + 1) (img.height - 1)
  let fx := ui - (Int.floor ui : ℝ)
  let fy := vi - (Int.floor vi : ℝ)
  let p00 := img.get x0 y0
  let p10 := img.get x1 y0
  let p01 := img.get x0 y1
  let p11 := img.get x1 y1
  { r := mixChannel p00.r p10.r p01.r p11.r fx fy
    g := mixChannel p00.g p10.g p01.g p11.g fx fy
    b := mixChannel p00.b p10.b p01.b p11.b fx fy
    a := mixChannel p00.a p10.a p01.a p11.a fx fy }

open Classical in
/-- Modelled from the spec: sample_nearest of the external image crate,
treated by section 4.2 as an interface contract: a miss (None) for
(u, v) outside the unit square or an empty raster, otherwise the
nearest pixel. -/
noncomputable def sample_nearest (img : RgbaImage) (u v : ℝ) : Option Rgba :=
  if (0 ≤ u ∧ u ≤ 1 ∧ 0 ≤ v ∧ v ≤ 1) ∧ 0 < img.width ∧ 0 < img.height then
    some (nearestAt img u v)
  else none

open Classical in
/-- Modelled from the spec: sample_bilinear of the external image crate,
treated by section 4.2 as an interface contract: a miss (None) for
(u, v) outside the unit square or an empty raster, otherwise the
bilinear blend. -/
noncomputable def sample_bilinear (img : RgbaImage) (u v : ℝ) : Option Rgba :=
  if (0 ≤ u ∧ u ≤ 1 ∧ 0 ≤ v ∧ v ≤ 1) ∧ 0 < img.width ∧ 0 < img.height then
    some (bilinearAt img u v)
  else none

/-- Embeds Interpolation::sample of src/math.rs: dispatch to the crate
sampler for the chosen mode and unwrap_or the fallback pixel
Rgba [0, 0, 0, 255].  A NaN v component (phi was NaN) fails the crate
range check, hence the none branch also misses. -/
noncomputable def Interpolation.sample (mode : Interpolation)
    (img : RgbaImage) (uv : ℝ × Option ℝ) : Rgba :=
  (match uv.2 with
   | none => none
   | some v =>
     match mode with
     | Interpolation.Linear => sample_bilinear img uv.1 v
     | Interpolation.Nearest => sample_nearest img uv.1 v).getD ⟨0, 0, 0, 255⟩

/-! ## The per-face projection and convert (src/lib.rs, fn convert;
src/main.rs has a textually unrolled copy of the same per-side match) -/

/-- The pre-normalization direction the convert loop builds for face
side at output pixel (x, y) with face size S, transcribed from the
match in src/lib.rs (xf = x as f32, size = S as f32):
Front (0.5, xf/size - 0.5, yf/size - 0.5), Back (-0.5, 0.5 - xf/size,
yf/size - 0.5), Left (-(xf/size - 0.5), 0.5, yf/size - 0.5),
Right (xf/size - 0.5, -0.5, yf/size - 0.5), Top (xf/size - 0.5,
0.5 - yf/size, -0.5), Bottom (xf/size - 0.5, yf/size - 0.5, 0.5). -/
noncomputable def direction (S : Nat) (side : Side) (x y : Nat) : Vec3 :=
  let xf : ℝ := x
  let yf : ℝ := y
  let size : ℝ := S
  match side with
  | Side.Front => ⟨0.5, xf / size - 0.5, yf / size - 0.5⟩
  | Side.Back => ⟨-0.5, 0.5 - xf / size, yf / size - 0.5⟩
  | Side.Left => ⟨-(xf / size - 0.5), 0.5, yf / size - 0.5⟩
  | Side.Right => ⟨xf / size - 0.5, -0.5, yf / size - 0.5⟩
  | Side.Top => ⟨xf / size - 0.5, 0.5 - yf / size, -0.5⟩
  | Side.Bottom => ⟨xf / size - 0.5, yf / size - 0.5, 0.5⟩

/-- The direction table as the spec section 4.4 words it, for the
refinement comparison: with a = x/S - 0.5 and b = y/S - 0.5,
Front (0.5, a, b), Back (-0.5, -a, b), Left (-a, 0.5, b),
Right (a, -0.5, b), Top (a, -b, -0.5), Bottom (a, b, 0.5). -/
noncomputable def specDirection (S : Nat) (side : Side) (x y : Nat) : Vec3 :=
  let a : ℝ := (x : ℝ) / (S : ℝ) - 0.5
  let b : ℝ := (y : ℝ) / (S : ℝ) - 0.5
  match side with
  | Side.Front => ⟨0.5, a, b⟩
  | Side.Back => ⟨-0.5, -a, b⟩
  | Side.Left => ⟨-a, 0.5, b⟩
  | Side.Right => ⟨a, -0.5, b⟩
  | Side.Top => ⟨a, -b, -0.5⟩
  | Side.Bottom => ⟨a, b, 0.5⟩

/-- The body of the convert pixel loop: build the direction, normalize,
convert to a SphericalAngle, convert to UV, sample. -/
noncomputable def convertPixel (mode : Interpolation) (img : RgbaImage)
    (S : Nat) (side : Side) (x y : Nat) : Rgba :=
  Interpolation.sample mode img
    (SphericalAngle.to_uv
      (SphericalAngle.from_normalized_vector ((direction S side x y).normalize)))

/-- The nested x-then-y pixel loop of convert: start from a blank
size by size buffer and put_pixel every coordinate once. -/
def fillFace (size : Nat) (f : Nat → Nat → Rgba) : RgbaImage :=
  (List.range size).foldl
    (fun img x =>
      (List.range size).foldl (fun im y => im.putPixel x y (f x y)) img)
    (RgbaImage.new size size)

/-- One face as built inside convert. -/
noncomputable def faceImage (cfg : Config) (img : RgbaImage)
    (side : Side) : RgbaImage :=
  fillFace cfg.size (fun x y => convertPixel cfg.interpolation img cfg.size side x y)

/-- Embeds fn convert of src/lib.rs.  The source maps over the array
[Front, Back, Left, Right, Top, Bottom] with rayon par_iter().map().collect();
an indexed rayon collect is order-preserving and deterministic, so it is
modelled as the sequential List.map. -/
noncomputable def convert (cfg : Config) (img : RgbaImage) :
    List (RgbaImage × Side) :=
  [Side.Front, Side.Back, Side.Left, Side.Right, Side.Top, Side.Bottom].map
    (fun side => (faceImage cfg img side, side))

/-! ## Reorientation (src/lib.rs, fn rotate) -/

/-- Embeds imageops::rotate90 of the external image crate (documented
as a 90 degree clockwise rotation): dimensions swap and
dst(x, y) = src(y, h - 1 - x). -/
def rotate90 (img : RgbaImage) : RgbaImage :=
  { width := img.height, height := img.width
    get := fun x y => img.get y (img.height - 1 - x) }

/-- Embeds imageops::rotate180 of the external image crate:
dst(x, y) = src(w - 1 - x, h - 1 - y). -/
def rotate180 (img : RgbaImage) : RgbaImage :=
  { width := img.width, height := img.height
    get := fun x y => img.get (img.width - 1 - x) (img.height - 1 - y) }

/-- Embeds imageops::rotate270 of the external image crate (90 degrees
counter-clockwise): dimensions swap and dst(x, y) = src(w - 1 - y, x). -/
def rotate270 (img : RgbaImage) : RgbaImage :=
  { width := img.height, height := img.width
    get := fun x y => img.get (img.width - 1 - y) x }

/-- The per-entry match inside fn rotate of src/lib.rs. -/
def rotateFace (img : RgbaImage) (side : Side) : RgbaImage :=
  match side with
  | Side.Top => img
  | Side.Bottom => rotate180 img
  | Side.Left => rotate180 img
  | Side.Right => img
  | Side.Front => rotate270 img
  | Side.Back => rotate90 img

/-- Embeds fn rotate of src/lib.rs: rotate each face by the per-side
rule, keeping its Side tag (into_par_iter().map().collect(), again an
order-preserving indexed rayon collect, modelled as List.map). -/
def rotate (entries : List (RgbaImage × Side)) : List (RgbaImage × Side) :=
  entries.map (fun e => (rotateFace e.1 e.2, e.2))

/-! ## The main driver (src/main.rs, fn main)

The fallible front half (file open, decode) is taken as already
successful: mainRun receives the decoded image.  Effects on the file
system are recorded as lists; the source order is: aspect-ratio check
(panic before any directory creation), create_dir_all, convert,
optional rotate, six saves. -/

/-- Outcome of a run of fn main after a successful decode. -/
inductive MainOutcome where
  | panicked (msg : String)
  | success
deriving DecidableEq, Repr

/-- Process exit code of the outcome: a Rust panic exits with 101. -/
def MainOutcome.exitCode : MainOutcome → Nat
  | MainOutcome.panicked _ => 101
  | MainOutcome.success => 0

/-- A run of fn main: its outcome and the file-system effects it
performed, in order. -/
structure MainResult where
  outcome : MainOutcome
  dirsCreated : List String
  filesWritten : List String
deriving Repr

/-- The face data main writes: convert, then rotate when the flag is
set (fn main of src/main.rs). -/
noncomputable def mainFaces (cfg : Config) (img : RgbaImage) :
    List (RgbaImage × Side) :=
  if cfg.rotate then rotate (convert cfg img) else convert cfg img

/-- Embeds fn main of src/main.rs after a successful decode of the
input: panic on width != height * 2 before creating anything, else
create the output directory, convert (and optionally rotate), and
save one file per face named side.format. -/
noncomputable def mainRun (cfg : Config) (img : RgbaImage) : MainResult :=
  if img.width ≠ img.height * 2 then
    { outcome := MainOutcome.panicked
        "Image width should be exact 2 times of image height."
      dirsCreated := []
      filesWritten := [] }
  else
    { outcome := MainOutcome.success
      dirsCreated := [cfg.output]
      filesWritten :=
        (mainFaces cfg img).map
          (fun e => cfg.output ++ "/" ++ sideName e.2 ++ "." ++ cfg.format.text) }

/-! ## Concrete inputs used by witnesses -/

/-- A 2 by 1 solid red source image (the S1 scenario shape). -/
def sampleImg : RgbaImage := ⟨2, 1, fun _ _ => ⟨255, 0, 0, 255⟩⟩

/-- A 3 by 1 source image whose width is not twice its height. -/
def badImage : RgbaImage := ⟨3, 1, fun _ _ => ⟨0, 0, 0, 255⟩⟩

/-- A configuration with the documented defaults. -/
def cfgDefault : Config :=
  ⟨OutputFormat.Png, Interpolation.Linear, "input.png", "out", 512, false⟩

/-- A configuration with size 0, violating the positive-size precondition. -/
def cfgZero : Config :=
  ⟨OutputFormat.Png, Interpolation.Linear, "input.png", "out", 0, false⟩

/-- A 4 by 4 constant gray face image. -/
def grayImage : RgbaImage := ⟨4, 4, fun _ _ => ⟨128, 128, 128, 255⟩⟩

/-- A constant gray cubemap, one gray face per side. -/
def grayEntries : List (RgbaImage × Side) :=
  [(grayImage, Side.Front), (grayImage, Side.Back), (grayImage, Side.Left),
   (grayImage, Side.Right), (grayImage, Side.Top), (grayImage, Side.Bottom)]

/-! ## Helper lemmas -/

theorem RgbaImage.ext_get (a b : RgbaImage) (hw : a.width = b.width)
    (hh : a.height = b.height) (hg : ∀ x y, a.get x y = b.get x y) : a = b := by
  obtain ⟨w1, h1, g1⟩ := a
  obtain ⟨w2, h2, g2⟩ := b
  simp only at hw hh
  subst hw hh
  congr 1
  funext x y
  exact hg x y

theorem foldlPut_get (f : Nat → Nat → Rgba) (x : Nat) :
    ∀ (ys : List Nat) (img : RgbaImage) (i j : Nat),
      ((ys.foldl (fun im y => im.putPixel x y (f x y)) img).get i j)
        = if i = x ∧ j ∈ ys then f x j else img.get i j := by
  intro ys
  induction ys with
  | nil => intro img i j; simp
  | cons y t ih =>
    intro img i j
    simp only [List.foldl_cons]
    rw [ih]
    by_cases hix : i = x
    · by_cases hjt : j ∈ t
      · simp [hix, hjt]
      · by_cases hjy : j = y
        · subst hix hjy
          simp [RgbaImage.putPixel, hjt]
        · simp [hix, hjt, hjy, RgbaImage.putPixel]
    · simp [hix, RgbaImage.putPixel]

theorem foldlPut_width (f : Nat → Nat → Rgba) (x : Nat) :
    ∀ (ys : List Nat) (img : RgbaImage),
      (ys.foldl (fun im y => im.putPixel x y (f x y)) img).width = img.width := by
  intro ys
  induction ys with
  | nil => intro img; rfl
  | cons y t ih => intro img; simp only [List.foldl_cons]; rw [ih]; rfl

theorem foldlPut_height (f : Nat → Nat → Rgba) (x : Nat) :
    ∀ (ys : List Nat) (img : RgbaImage),
      (ys.foldl (fun im y => im.putPixel x y (f x y)) img).height = img.height := by
  intro ys
  induction ys with
  | nil => intro img; rfl
  | cons y t ih => intro img; simp only [List.foldl_cons]; rw [ih]; rfl

theorem foldlRows_get (s : Nat) (f : Nat → Nat → Rgba) :
    ∀ (xs : List Nat) (img : RgbaImage) (i j : Nat),
      ((xs.foldl
          (fun im x => (List.range s).foldl
            (fun im2 y => im2.putPixel x y (f x y)) im) img).get i j)
        = if i ∈ xs ∧ j < s then f i j else img.get i j := by
  intro xs
  induction xs with
  | nil => intro img i j; simp
  | cons x t ih =>
    intro img i j
    simp only [List.foldl_cons]
    rw [ih, foldlPut_get]
    by_cases hx : i = x <;> by_cases ht : i ∈ t <;> by_cases hj : j < s <;>
      simp [hx, ht, hj, List.mem_range]

theorem fillFace_get (s : Nat) (f : Nat → Nat → Rgba) (i j : Nat)
    (hi : i < s) (hj : j < s) : (fillFace s f).get i j = f i j := by
  simp [fillFace, foldlRows_get, List.mem_range, hi, hj]

theorem fillFace_width (s : Nat) (f : Nat → Nat → Rgba) :
    (fillFace s f).width = s := by
  have h : ∀ (xs : List Nat) (img : RgbaImage),
      (xs.foldl
        (fun im x => (List.range s).foldl
          (fun im2 y => im2.putPixel x y (f x y)) im) img).width = img.width := by
    intro xs
    induction xs with
    | nil => intro img; rfl
    | cons x t ih =>
      intro img
      simp only [List.foldl_cons]
      rw [ih, foldlPut_width]
  simp [fillFace, h, RgbaImage.new]

theorem fillFace_height (s : Nat) (f : Nat → Nat → Rgba) :
    (fillFace s f).height = s := by
  have h : ∀ (xs : List Nat) (img : RgbaImage),
      (xs.foldl
        (fun im x => (List.range s).foldl
          (fun im2 y => im2.putPixel x y (f x y)) im) img).height = img.height := by
    intro xs
    induction xs with
    | nil => intro img; rfl
    | cons x t ih =>
      intro img
      simp only [List.foldl_cons]
      rw [ih, foldlPut_height]
  simp [fillFace, h, RgbaImage.new]

theorem rotateFace_const (img : RgbaImage) (c : Rgba) (side : Side)
    (hsq : img.width = img.height) (hc : ∀ x y, img.get x y = c) :
    rotateFace img side = img := by
  cases side <;>
    refine RgbaImage.ext_get _ _ ?_ ?_ ?_ <;>
    simp [rotateFace, rotate90, rotate180, rotate270, hsq, hc]

theorem rotate_const_entries (c : Rgba) :
    ∀ (entries : List (RgbaImage × Side)),
      (∀ e ∈ entries, e.1.width = e.1.height) →
      (∀ e ∈ entries, ∀ x y, e.1.get x y = c) →
      rotate entries = entries := by
  intro entries
  induction entries with
  | nil => intro _ _; rfl
  | cons e t ih =>
    intro hsq hc
    have h1 : rotateFace e.1 e.2 = e.1 :=
      rotateFace_const e.1 c e.2 (hsq e (List.mem_cons_self e t))
        (hc e (List.mem_cons_self e t))
    have h2 : rotate t = t :=
      ih (fun a ha => hsq a (List.mem_cons_of_mem e ha))
        (fun a ha => hc a (List.mem_cons_of_mem e ha))
    simp only [rotate, List.map_cons] at h2 ⊢
    rw [h1, h2]

/-! ## Claims -/

/-- C1 counterexample: the command line derived from struct Config
offers no tone-mapping flag (-t) and no exposure flag (-e). -/
theorem c1_counterexample :
    ¬ (("t", "tone-mapping") ∈ cliFlags) ∧
    ¬ (("e", "exposure") ∈ cliFlags) := by decide

/-- C1 (amended): the CLI accepts only the flags format (-f),
interpolation (-i), size (-s) and rotate (-r), with no tone-mapping and
no exposure option; the Reinhard functions in src/math.rs do compute the
stated per-channel formula (at input (1, 2, 4) with exposure 1 they
yield (128, 170, 204)), but the convert pixel pipeline samples the
decoded image directly, with no tone-mapping stage in it. -/
theorem c1_no_tone_mapping_stage :
    (∀ p ∈ cliFlags, p.2 ≠ "tone-mapping" ∧ p.2 ≠ "exposure" ∧
      p.1 ≠ "t" ∧ p.1 ≠ "e") ∧
    reinhard_tone_mapping_rgb 1 2 4 1 = ⟨128, 170, 204, 255⟩ ∧
    (∀ (mode : Interpolation) (img : RgbaImage) (S : Nat) (side : Side)
      (x y : Nat),
      convertPixel mode img S side x y =
        Interpolation.sample mode img
          (SphericalAngle.to_uv (SphericalAngle.from_normalized_vector
            ((direction S side x y).normalize)))) := by
  refine ⟨by decide, ?_, fun _ _ _ _ _ _ => rfl⟩
  simp only [reinhard_tone_mapping_rgb, Rgba.mk.injEq]
  norm_num [toneChannel, rustRound, asU8] <;> decide

/-- C1 witness: the first conjunct applied to the concrete flag pair
(f, format). -/
theorem c1_witness :
    ("f", "format") ∈ cliFlags ∧
    (("f", "format").2 ≠ "tone-mapping" ∧ ("f", "format").2 ≠ "exposure" ∧
      ("f", "format").1 ≠ "t" ∧ ("f", "format").1 ≠ "e") :=
  ⟨by decide, c1_no_tone_mapping_stage.1 ("f", "format") (by decide)⟩

/-- C4 counterexample: at the finite input c = 1000 with exposure 1 the
rounded 8-bit Reinhard output is exactly 255, not strictly below it
(round(255000/1001) = round(254.745...) = 255). -/
theorem c4_counterexample :
    toneChannel 1000 1 = 255 ∧ ¬ (toneChannel 1000 1 < 255) := by
  constructor <;> norm_num [toneChannel, rustRound, asU8] <;> decide

/-- C4 (amended): for every exposure the channel input 0 maps to 8-bit
output 0, and for a nonnegative product c*e the 8-bit output is
strictly below 255 exactly when c*e < 509; at c*e = 509 and beyond the
rounding reaches 255. -/
theorem c4_tone_channel_range :
    (∀ e : ℚ, toneChannel 0 e = 0) ∧
    (∀ c e : ℚ, 0 ≤ c * e → (toneChannel c e < 255 ↔ c * e < 509)) := by
  constructor
  · intro e
    norm_num [toneChannel, rustRound, asU8]
  · intro c e ht
    set t := c * e with htdef
    have h1 : (0:ℚ) < 1 + t := by linarith
    set q := t / (1 + t) * 255 with hq
    have hq0 : 0 ≤ q := by positivity
    have hqlt : q < 255 := by
      have h2 : t / (1 + t) < 1 := by
        rw [div_lt_one h1]; linarith
      nlinarith
    have hround : rustRound q = Int.floor (q + 1/2) := by
      rw [rustRound, if_neg (not_lt.mpr (by linarith))]
    have hfl0 : 0 ≤ Int.floor (q + 1/2) := Int.floor_nonneg.mpr (by linarith)
    have hfl255 : Int.floor (q + 1/2) ≤ 255 := by
      have h3 : Int.floor (q + 1/2) < 256 := Int.floor_lt.mpr (by push_cast; linarith)
      omega
    have hval : toneChannel c e = (Int.floor (q + 1/2)).toNat := by
      simp only [toneChannel, ← htdef, ← hq, hround, asU8]
      rw [max_eq_right hfl0, min_eq_right hfl255]
    have key : q + 1/2 < 255 ↔ t < 509 := by
      rw [hq, div_mul_eq_mul_div]
      constructor
      · intro hlt
        have h3 : t * 255 / (1 + t) < 509/2 := by linarith
        have h4 : t * 255 < 509/2 * (1 + t) := (div_lt_iff₀ h1).mp h3
        linarith
      · intro hlt
        have h4 : t * 255 < 509/2 * (1 + t) := by linarith
        have h3 : t * 255 / (1 + t) < 509/2 := (div_lt_iff₀ h1).mpr h4
        linarith
    rw [hval]
    constructor
    · intro hlt
      refine key.mp ?_
      have h5 : Int.floor (q + 1/2) < 255 := by omega
      have h6 : q + 1/2 < ((255:ℤ):ℚ) := Int.floor_lt.mp h5
      exact_mod_cast h6
    · intro hlt
      have h6 : q + 1/2 < ((255:ℤ):ℚ) := by exact_mod_cast key.mpr hlt
      have h5 : Int.floor (q + 1/2) < 255 := Int.floor_lt.mpr h6
      omega

/-- C4 witness: the range equivalence applied at c = 1, e = 1. -/
theorem c4_witness :
    (0:ℚ) ≤ 1 * 1 ∧ (toneChannel 1 1 < 255 ↔ (1:ℚ) * 1 < 509) :=
  ⟨by norm_num, c4_tone_channel_range.2 1 1 (by norm_num)⟩

/-- C2: for every face, pixel and positive size, the pre-normalization
direction of the convert loop equals the section 4.4 table entry (with
a = x/S - 0.5 and b = y/S - 0.5), and the pixel value is the sample of
that direction after normalize, from_normalized_vector and to_uv. -/
theorem c2_direction_refines (mode : Interpolation) (img : RgbaImage)
    (S : Nat) (side : Side) (x y : Nat) (hS : 0 < S) :
    direction S side x y = specDirection S side x y ∧
    convertPixel mode img S side x y =
      Interpolation.sample mode img
        (SphericalAngle.to_uv (SphericalAngle.from_normalized_vector
          ((specDirection S side x y).normalize))) := by
  have h : direction S side x y = specDirection S side x y := by
    cases side <;>
      simp only [direction, specDirection] <;>
      congr 1 <;>
      ring
  exact ⟨h, by rw [convertPixel, h]⟩

/-- C2 witness: the refinement at size 4, face Back, pixel (1, 3). -/
theorem c2_witness : 0 < 4 ∧
    (direction 4 Side.Back 1 3 = specDirection 4 Side.Back 1 3 ∧
     convertPixel Interpolation.Linear sampleImg 4 Side.Back 1 3 =
       Interpolation.sample Interpolation.Linear sampleImg
         (SphericalAngle.to_uv (SphericalAngle.from_normalized_vector
           ((specDirection 4 Side.Back 1 3).normalize)))) :=
  ⟨by decide,
   c2_direction_refines Interpolation.Linear sampleImg 4 Side.Back 1 3 (by decide)⟩

/-- C3 counterexample: at the vector (0, 0, 2) the code's phi is NaN
(asin applied to 2 without any clamp), not the defined value
asin(clamp(2, -1, 1)) the claim asserts. -/
theorem c3_counterexample :
    ¬ ((SphericalAngle.from_normalized_vector (Vec3.mk 0 0 2)).phi
        = some (Real.arcsin (min 1 (max (-1) (2 : ℝ))))) := by
  have h : asinF (2 : ℝ) = none := by
    rw [asinF, if_neg]
    norm_num
  simp [SphericalAngle.from_normalized_vector, h]

/-- C3 (amended): from_normalized_vector computes theta = atan2(v.y, v.x)
and phi = asin(v.z) with no clamp: phi is NaN exactly when the z
component drifts outside [-1, 1], and equals asin(v.z) otherwise. -/
theorem c3_asin_unclamped (v : Vec3) :
    (SphericalAngle.from_normalized_vector v).theta = atan2 v.y v.x ∧
    ((SphericalAngle.from_normalized_vector v).phi = none ↔ 1 < |v.z|) ∧
    (|v.z| ≤ 1 →
      (SphericalAngle.from_normalized_vector v).phi = some (Real.arcsin v.z)) := by
  refine ⟨rfl, ?_, ?_⟩
  · by_cases h : -1 ≤ v.z ∧ v.z ≤ 1
    · simp only [SphericalAngle.from_normalized_vector, asinF, if_pos h]
      simp only [reduceCtorEq, false_iff, not_lt]
      exact abs_le.mpr h
    · simp only [SphericalAngle.from_normalized_vector, asinF, if_neg h]
      simp only [true_iff]
      exact lt_of_not_le (fun hle => h (abs_le.mp hle))
  · intro h
    simp only [SphericalAngle.from_normalized_vector, asinF, if_pos (abs_le.mp h)]

/-- C3 witness: the defined branch applied at the vector (0, 0, 1/2). -/
theorem c3_witness :
    |(Vec3.mk 0 0 (1/2 : ℝ)).z| ≤ 1 ∧
    (SphericalAngle.from_normalized_vector (Vec3.mk 0 0 (1/2 : ℝ))).phi
      = some (Real.arcsin (Vec3.mk 0 0 (1/2 : ℝ)).z) := by
  have h : |(Vec3.mk 0 0 (1/2 : ℝ)).z| ≤ 1 := by
    rw [abs_le]
    norm_num
  exact ⟨h, (c3_asin_unclamped (Vec3.mk 0 0 (1/2 : ℝ))).2.2 h⟩

/-- C5: after a successful decode whose width is not twice its height,
main panics with the distinct aspect-ratio message (a non-zero process
exit code) before creating any directory or writing any file. -/
theorem c5_aspect_ratio_panic (cfg : Config) (img : RgbaImage)
    (h : img.width ≠ 2 * img.height) :
    (mainRun cfg img).outcome = MainOutcome.panicked
        "Image width should be exact 2 times of image height." ∧
    (mainRun cfg img).outcome.exitCode ≠ 0 ∧
    (mainRun cfg img).dirsCreated = [] ∧
    (mainRun cfg img).filesWritten = [] := by
  have h2 : img.width ≠ img.height * 2 := by omega
  simp [mainRun, h2, MainOutcome.exitCode]

/-- C5 witness: the panic behavior at a concrete 3 by 1 image. -/
theorem c5_witness :
    badImage.width ≠ 2 * badImage.height ∧
    ((mainRun cfgDefault badImage).outcome = MainOutcome.panicked
        "Image width should be exact 2 times of image height." ∧
      (mainRun cfgDefault badImage).outcome.exitCode ≠ 0 ∧
      (mainRun cfgDefault badImage).dirsCreated = [] ∧
      (mainRun cfgDefault badImage).filesWritten = []) :=
  ⟨by decide, c5_aspect_ratio_panic cfgDefault badImage (by decide)⟩

/-- C6: for every source and options with positive size, convert yields
exactly six faces, one per Side in the fixed order, each of dimensions
size by size. -/
theorem c6_six_square_faces (cfg : Config) (img : RgbaImage)
    (h : 0 < cfg.size) :
    (convert cfg img).map Prod.snd =
      [Side.Front, Side.Back, Side.Left, Side.Right, Side.Top, Side.Bottom] ∧
    ∀ e ∈ convert cfg img, e.1.width = cfg.size ∧ e.1.height = cfg.size := by
  constructor
  · simp [convert]
  · intro e he
    simp only [convert, List.mem_map] at he
    obtain ⟨side, _, rfl⟩ := he
    simp only [faceImage]
    exact ⟨fillFace_width _ _, fillFace_height _ _⟩

/-- C6 witness: the six-face shape at the default options and the red
2 by 1 source. -/
theorem c6_witness :
    0 < cfgDefault.size ∧
    ((convert cfgDefault sampleImg).map Prod.snd =
      [Side.Front, Side.Back, Side.Left, Side.Right, Side.Top, Side.Bottom] ∧
     ∀ e ∈ convert cfgDefault sampleImg,
       e.1.width = cfgDefault.size ∧ e.1.height = cfgDefault.size) :=
  ⟨by decide, c6_six_square_faces cfgDefault sampleImg (by decide)⟩

/-- C7: the reorientation table matches the claim per face (Top 0,
Bottom 180, Left 180, Right 0, Front 270, Back 90 degrees), it is a
pixel-exact index remapping applied only when the rotate flag is on,
and on a constant-color cubemap of square faces it changes nothing. -/
theorem c7_reorient (entries : List (RgbaImage × Side)) (c : Rgba)
    (hsq : ∀ e ∈ entries, e.1.width = e.1.height)
    (hconst : ∀ e ∈ entries, ∀ x y, e.1.get x y = c) :
    rotate entries = entries ∧
    (∀ img : RgbaImage,
      rotateFace img Side.Top = img ∧
      rotateFace img Side.Bottom = rotate180 img ∧
      rotateFace img Side.Left = rotate180 img ∧
      rotateFace img Side.Right = img ∧
      rotateFace img Side.Front = rotate270 img ∧
      rotateFace img Side.Back = rotate90 img) ∧
    (∀ (cfg : Config) (source : RgbaImage), cfg.rotate = false →
      mainFaces cfg source = convert cfg source) :=
  ⟨rotate_const_entries c entries hsq hconst,
   fun _ => ⟨rfl, rfl, rfl, rfl, rfl, rfl⟩,
   fun cfg source hr => by simp [mainFaces, hr]⟩

/-- C7 witness: rotating a concrete constant gray cubemap leaves it
unchanged. -/
theorem c7_witness : rotate grayEntries = grayEntries := by
  have hsq : ∀ e ∈ grayEntries, e.1.width = e.1.height := by
    intro e he
    simp only [grayEntries, List.mem_cons, List.not_mem_nil, or_false] at he
    rcases he with h | h | h | h | h | h <;> subst h <;> rfl
  have hconst : ∀ e ∈ grayEntries, ∀ x y, e.1.get x y = ⟨128, 128, 128, 255⟩ := by
    intro e he
    simp only [grayEntries, List.mem_cons, List.not_mem_nil, or_false] at he
    rcases he with h | h | h | h | h | h <;> subst h <;> intro x y <;> rfl
  exact (c7_reorient grayEntries ⟨128, 128, 128, 255⟩ hsq hconst).1

/-- C8: the sampler returns the mode-selected pixel for (u, v) inside
the unit square of a non-empty source, and the fixed fallback pixel
(0, 0, 0, 255) for any (u, v) outside it, including a NaN coordinate,
without failing. -/
theorem c8_sampler_fallback (mode : Interpolation) (img : RgbaImage)
    (u v : ℝ) :
    Interpolation.sample mode img (u, none) = ⟨0, 0, 0, 255⟩ ∧
    (¬ (0 ≤ u ∧ u ≤ 1 ∧ 0 ≤ v ∧ v ≤ 1) →
      Interpolation.sample mode img (u, some v) = ⟨0, 0, 0, 255⟩) ∧
    ((0 ≤ u ∧ u ≤ 1 ∧ 0 ≤ v ∧ v ≤ 1) → 0 < img.width → 0 < img.height →
      Interpolation.sample mode img (u, some v) =
        match mode with
        | Interpolation.Linear => bilinearAt img u v
        | Interpolation.Nearest => nearestAt img u v) := by
  refine ⟨by cases mode <;> rfl, ?_, ?_⟩
  · intro hout
    cases mode
    · show (sample_bilinear img u v).getD ⟨0, 0, 0, 255⟩ = ⟨0, 0, 0, 255⟩
      rw [sample_bilinear, if_neg (fun hcond => hout hcond.1)]
      rfl
    · show (sample_nearest img u v).getD ⟨0, 0, 0, 255⟩ = ⟨0, 0, 0, 255⟩
      rw [sample_nearest, if_neg (fun hcond => hout hcond.1)]
      rfl
  · intro hin hw hh
    cases mode
    · show (sample_bilinear img u v).getD ⟨0, 0, 0, 255⟩ = bilinearAt img u v
      rw [sample_bilinear, if_pos ⟨hin, hw, hh⟩]
      rfl
    · show (sample_nearest img u v).getD ⟨0, 0, 0, 255⟩ = nearestAt img u v
      rw [sample_nearest, if_pos ⟨hin, hw, hh⟩]
      rfl

/-- C8 witness: the miss branch applied at u = 2 outside the unit
square on the concrete red source. -/
theorem c8_witness :
    ¬ ((0:ℝ) ≤ 2 ∧ (2:ℝ) ≤ 1 ∧ (0:ℝ) ≤ 0 ∧ (0:ℝ) ≤ 1) ∧
    Interpolation.sample Interpolation.Nearest sampleImg (2, some 0)
      = ⟨0, 0, 0, 255⟩ := by
  have h : ¬ ((0:ℝ) ≤ 2 ∧ (2:ℝ) ≤ 1 ∧ (0:ℝ) ≤ 0 ∧ (0:ℝ) ≤ 1) := by norm_num
  exact ⟨h, (c8_sampler_fallback Interpolation.Nearest sampleImg 2 0).2.1 h⟩

/-- C9: convert returns its six (image, side) pairs in the fixed order
Front, Back, Left, Right, Top, Bottom (the rayon indexed collect is
order-preserving, so the parallel schedule cannot change it), and
rotate preserves the order and the Side tag of every entry. -/
theorem c9_deterministic_order (cfg : Config) (img : RgbaImage)
    (entries : List (RgbaImage × Side)) :
    (convert cfg img).map Prod.snd =
      [Side.Front, Side.Back, Side.Left, Side.Right, Side.Top, Side.Bottom] ∧
    (rotate entries).map Prod.snd = entries.map Prod.snd := by
  constructor
  · simp [convert]
  · simp [rotate, List.map_map]

/-- C10: with size 0 convert neither fails nor rejects: the pixel loops
run zero times and it returns six blank 0 by 0 faces, one per side. -/
theorem c10_size_zero (cfg : Config) (img : RgbaImage) (h : cfg.size = 0) :
    convert cfg img =
      [(RgbaImage.new 0 0, Side.Front), (RgbaImage.new 0 0, Side.Back),
       (RgbaImage.new 0 0, Side.Left), (RgbaImage.new 0 0, Side.Right),
       (RgbaImage.new 0 0, Side.Top), (RgbaImage.new 0 0, Side.Bottom)] ∧
    ∀ e ∈ convert cfg img, e.1.width = 0 ∧ e.1.height = 0 := by
  have hface : ∀ side, faceImage cfg img side = RgbaImage.new 0 0 := by
    intro side
    simp [faceImage, h, fillFace]
  constructor
  · simp [convert, hface]
  · intro e he
    simp only [convert, List.mem_map] at he
    obtain ⟨side, _, rfl⟩ := he
    rw [hface side]
    exact ⟨rfl, rfl⟩

/-- C10 witness: the six 0 by 0 faces at a concrete size-0 config. -/
theorem c10_witness :
    cfgZero.size = 0 ∧
    convert cfgZero sampleImg =
      [(RgbaImage.new 0 0, Side.Front), (RgbaImage.new 0 0, Side.Back),
       (RgbaImage.new 0 0, Side.Left), (RgbaImage.new 0 0, Side.Right),
       (RgbaImage.new 0 0, Side.Top), (RgbaImage.new 0 0, Side.Bottom)] :=
  ⟨rfl, (c10_size_zero cfgZero sampleImg rfl).1⟩
